import Mathlib

/-!
Shallow embedding of the icon resolution and caching pipeline of the
protostar launcher (src/protostar/src/xdg.rs and
src/protostar/src/application.rs).

Paths are modelled as plain strings; the filesystem, the icon-theme index,
the SVG renderer and the snapshot writer are modelled as an explicit
environment (`World`), and every effect of the code (cache mutation,
snapshot writes, artifact files, render invocations, theme queries) is
returned explicitly by the embedded functions, so that "never queried" /
"never invoked" claims become statements about those counters.
-/

namespace Protostar

/-- Paths, as in `std::path::PathBuf`, modelled as strings with `/`
separators. -/
abbrev Path := String

/-- Split a character list at every occurrence of `c` (the splitter
underlying the path component and extension computations; same
behavior as splitting a string on a one-character separator). -/
def splitOnChar (c : Char) : List Char → List (List Char)
  | [] => [[]]
  | x :: xs =>
    if x = c then [] :: splitOnChar c xs
    else
      match splitOnChar c xs with
      | [] => [[x]]
      | h :: t => (x :: h) :: t

/-- Rust `Path::is_absolute` on unix: the path starts with `/`. -/
def isAbsolute (p : Path) : Bool :=
  match p.data with
  | c :: _ => c = '/'
  | [] => false

/-- Rust `PathBuf::join`: appends a component; an absolute right-hand side
replaces the whole path. -/
def pathJoin (base p : Path) : Path :=
  if isAbsolute p then p
  else if base = "" then p else base ++ "/" ++ p

/-- The final `/`-separated chunk of a path. -/
def lastComponent (p : Path) : String :=
  String.mk ((splitOnChar '/' p.data).getLastD [])

/-- Rust `Path::file_name`: the final normal component (empty chunks and `.`
chunks are not components); `None` when the path ends in `..` or has no
normal component (empty path, root, `.`). -/
def fileNameOpt (p : Path) : Option String :=
  match ((splitOnChar '/' p.data).filter (fun c => c ≠ [] ∧ c ≠ ['.'])).getLast? with
  | none => none
  | some c => if c = ['.', '.'] then none else some (String.mk c)

/-- Rust `Path::extension`: the part of the file name after its last `.`;
`none` when there is no `.`, or the only `.` is the leading one of a
hidden file. -/
def extensionOfName (f : String) : Option String :=
  match splitOnChar '.' f.data with
  | [] => none
  | [_] => none
  | x :: _ :: rest =>
    if x = [] ∧ rest = [] then none
    else some (String.mk ((splitOnChar '.' f.data).getLastD []))

/-- Rust `Path::extension` lifted to paths (extension of the last chunk). -/
def extension (p : Path) : Option String :=
  extensionOfName (lastComponent p)

/-- Drop the extension (and its dot) from a file name:
`Path::with_extension("")` applied to the file name, i.e. the file
stem. -/
def stemOfName (f : String) : String :=
  match extensionOfName f with
  | none => f
  | some e => f.dropRight (e.length + 1)

/-- Rust `path.with_extension("").file_name()` as used by `Icon::cached_process`:
the file stem of the path, `none` when the path has no file name. -/
def fileStemOpt (p : Path) : Option String :=
  (fileNameOpt p).map stemOfName

/-- The parent directory of a path: all `/`-separated chunks but the
last, rejoined. Used only by the spec-worded exact-path candidate
below, not by the code model. -/
def joinComponents : List (List Char) → List Char
  | [] => []
  | [c] => c
  | c :: rest => c ++ '/' :: joinComponents rest

/-- Parent directory (spec-side helper). -/
def parentDir (p : Path) : Path :=
  String.mk (joinComponents ((splitOnChar '/' p.data).dropLast))

/-- The decimal digit character for `d < 10`. -/
def decDigitChar (d : Nat) : Char :=
  Char.ofNat (48 + d)

/-- Decimal digits of `n`, most significant first, with explicit fuel
(always sufficient at `n + 1`) so that evaluation is structural. -/
def decDigitsAux : Nat → Nat → List Char
  | 0, _ => []
  | fuel + 1, n =>
    if n < 10 then [decDigitChar n]
    else decDigitsAux fuel (n / 10) ++ [decDigitChar (n % 10)]

/-- Decimal rendering of a natural number, modelling Rust's `Display`
formatting of the lengths and sizes interpolated into artifact names. -/
def natToString (n : Nat) : String :=
  String.mk (decDigitsAux (n + 1) n)

/-- Rust `IconType` from xdg.rs. -/
inductive IconType where
  | Png
  | Svg
  | Gltf
deriving DecidableEq, Repr

/-- Rust `Icon` from xdg.rs: a resolved icon candidate. -/
structure Icon where
  icon_type : IconType
  path : Path
  size : Nat
deriving DecidableEq, Repr

/-- Rust `Icon::from_path`: classify a path by extension (`png`→Png,
`svg`→Svg, `glb`/`gltf`→Gltf), `none` for an unrecognized extension. -/
def Icon.from_path (path : Path) (size : Nat) : Option Icon :=
  if extension path = some "png" then some ⟨IconType.Png, path, size⟩
  else if extension path = some "svg" then some ⟨IconType.Svg, path, size⟩
  else if extension path = some "glb" ∨ extension path = some "gltf" then
    some ⟨IconType.Gltf, path, size⟩
  else none

/-- Keys of the persistent image cache: `(icon name, requested size)`. -/
abbrev CacheKey := String × Nat

/-- Rust `ImageCache` from xdg.rs: the snapshot path and the key→path table
(the `HashMap` is modelled as an association list; insertion prepends,
which matches the map's lookup semantics since lookups take the first
match). -/
structure ImageCache where
  path : Path
  map : List (CacheKey × Path)
deriving DecidableEq, Repr

/-- Rust `HashMap::get` on the cache table. -/
def ImageCache.lookup (c : ImageCache) (k : CacheKey) : Option Path :=
  (c.map.find? (fun e => e.1 = k)).map (·.2)

/-- Rust `HashMap::contains_key` on the cache table. -/
def ImageCache.containsKey (c : ImageCache) (k : CacheKey) : Bool :=
  c.map.any (fun e => e.1 = k)

/-- Rust `ImageCache::insert` (xdg.rs:43): `HashMap::insert`. -/
def ImageCache.insertKV (c : ImageCache) (k : CacheKey) (v : Path) : ImageCache :=
  ⟨c.path, (k, v) :: c.map⟩

/-!
Serialization of the cache snapshot. The Rust code serializes the whole
`ImageCache` (its `path` field and the map as a `Vec` of pairs) through
serde + toml. We model the snapshot file as a list of scalar tokens
(strings and numbers), a stand-in for the textual toml document; the
codec below plays the role of `toml::ser::to_string_pretty` /
`toml::de::from_str` on this token stream and is injective, as serde's
round-trip contract guarantees for the real codec.
-/

/-- One scalar token of the serialized snapshot. -/
abbrev Token := String ⊕ Nat

/-- Serialize one cache entry. -/
def encEntry (e : CacheKey × Path) : List Token :=
  [Sum.inl e.1.1, Sum.inr e.1.2, Sum.inl e.2]

/-- Serialize the whole `ImageCache` (path field, entry count, entries). -/
def encCache (c : ImageCache) : List Token :=
  Sum.inl c.path :: Sum.inr c.map.length :: (c.map.map encEntry).flatten

/-- Deserialize `n` cache entries, returning them and the leftover
tokens. -/
def decEntries : Nat → List Token → Option (List (CacheKey × Path) × List Token)
  | 0, l => some ([], l)
  | n + 1, Sum.inl nm :: Sum.inr sz :: Sum.inl p :: rest =>
    (decEntries n rest).map (fun r => (((nm, sz), p) :: r.1, r.2))
  | _ + 1, _ => none

/-- Deserialize a snapshot; `none` on any malformed token stream. -/
def decCache (l : List Token) : Option ImageCache :=
  match l with
  | Sum.inl p :: Sum.inr n :: rest =>
    match decEntries n rest with
    | some (es, []) => some ⟨p, es⟩
    | _ => none
  | _ => none

/-- The state of the snapshot file on disk, as `ImageCache::new` can find
it: absent, unreadable, or present with some (possibly malformed)
contents. -/
inductive FileState where
  | missing
  | unreadable
  | contents (toks : List Token)
deriving DecidableEq

/-- Rust `ImageCache::new` (xdg.rs:30), the spec's `load()`: read and
deserialize the snapshot at `path`; on a missing or unreadable file, or a
deserialization failure, fall back to an empty cache. Note that on a
successful parse the returned cache is the deserialized one, including
its stored `path` field. -/
def ImageCache.new (path : Path) (file : FileState) : ImageCache :=
  match file with
  | FileState.contents toks =>
    match decCache toks with
    | some cache => cache
    | none => ⟨path, []⟩
  | _ => ⟨path, []⟩

/-!
The environment of a resolution run: which files pre-exist, what the
icon-theme index answers, what the SVG files contain (byte length, parse
success), and whether the renderer's png write and the snapshot
serialize/write succeed.
-/

/-- The ambient world of one resolution run. `themeLookup` models
`freedesktop_icons_greedy::lookup(name).with_size(s).with_theme(t).with_greed().find()`
with the theme already fixed (the theme string does not change within one
`get_icon` call). -/
structure World where
  fsExists : Path → Bool
  themeLookup : String → Nat → Option Path
  byteLen : Path → Nat
  parses : Path → Bool
  renderOk : Path → Bool
  serOk : Bool
  writeOk : Bool
  cacheDir : Path

/-- A path exists if it pre-existed or was written as an artifact during
this run. -/
def pathLive (w : World) (arts : List Path) (p : Path) : Bool :=
  w.fsExists p || arts.contains p

/-- Rust `ImageCache::save` (xdg.rs:47): serialize and write the snapshot;
both steps are `unwrap`ped in the code, so failure of either is a panic,
modelled as `Except.error ()`. On success we return the written token
stream. -/
def ImageCache.save (w : World) (c : ImageCache) : Except Unit (List Token) :=
  if w.serOk then
    if w.writeOk then Except.ok (encCache c) else Except.error ()
  else Except.error ()

/-- The spec's `insert_and_persist`: the guarded insert-then-save
sequence of `Icon::cached_process` (xdg.rs:308-319). Returns the new
cache and the token stream written to the snapshot file, `none` when the
key was already present (no write happens); `Except.error ()` is the
panic of a failed serialize or write. -/
def ImageCache.insert_and_persist (w : World) (c : ImageCache) (k : CacheKey)
    (v : Path) : Except Unit (ImageCache × Option (List Token)) :=
  if c.containsKey k then Except.ok (c, none)
  else
    match (c.insertKV k v).save w with
    | Except.ok toks => Except.ok (c.insertKV k v, some toks)
    | Except.error () => Except.error ()

/-!
The rasterizer, `get_png_from_svg` (xdg.rs:359-387).
-/

/-- The error taxonomy of the rasterizer: `fs::canonicalize`/`fs::read`
failures pass the io error through (`sourceUnreadable`),
`Tree::from_data` and `Pixmap::save_png` failures are mapped to
`ErrorKind::InvalidData` (`malformedDocument`, `writeFailed`). -/
inductive RastErr where
  | sourceUnreadable
  | malformedDocument
  | writeFailed
deriving DecidableEq, Repr

/-- Outcome of a fallible step that can also panic (`unwrap`). -/
inductive RRes (α : Type) where
  | panic
  | err (e : RastErr)
  | ok (a : α)
deriving DecidableEq, Repr

/-- Full observable outcome of one `get_png_from_svg` call: the result,
the artifact files existing afterwards, the number of `fs::read` calls on
the source, and the number of render invocations. -/
structure RastOut where
  result : RRes Path
  artifacts : List Path
  reads : Nat
  renders : Nat
deriving DecidableEq, Repr

/-- The content address of a rasterized artifact:
`<cache dir>/<source file name>-<source byte length>-<size>.png`
(xdg.rs:365-370). `fs::canonicalize` is modelled as the identity on
existing paths, so the file name used is the source's own. -/
def pngAddress (w : World) (srcName : String) (len size : Nat) : Path :=
  pathJoin w.cacheDir (srcName ++ "-" ++ natToString len ++ "-" ++ natToString size ++ ".png")

/-- Rust `get_png_from_svg` (xdg.rs:359): canonicalize and read the source
(error if it does not exist), parse it, compute the content address from
(file name, byte length, size); if the artifact exists return it, else
render and write it. The `file_name().unwrap().to_str().unwrap()` is a
panic when the canonical path has no file name. -/
def get_png_from_svg (w : World) (arts : List Path) (svgPath : Path)
    (size : Nat) : RastOut :=
  if pathLive w arts svgPath then
    if w.parses svgPath then
      match fileNameOpt svgPath with
      | some srcName =>
        if pathLive w arts (pngAddress w srcName (w.byteLen svgPath) size) then
          ⟨RRes.ok (pngAddress w srcName (w.byteLen svgPath) size), arts, 1, 0⟩
        else
          if w.renderOk (pngAddress w srcName (w.byteLen svgPath) size) then
            ⟨RRes.ok (pngAddress w srcName (w.byteLen svgPath) size),
              pngAddress w srcName (w.byteLen svgPath) size :: arts, 1, 1⟩
          else
            ⟨RRes.err RastErr.writeFailed, arts, 1, 1⟩
      | none => ⟨RRes.panic, arts, 1, 0⟩
    else ⟨RRes.err RastErr.malformedDocument, arts, 1, 0⟩
  else ⟨RRes.err RastErr.sourceUnreadable, arts, 0, 0⟩

/-!
Post-processing, `Icon::cached_process` (xdg.rs:298-324).
-/

/-- Full observable outcome of one `Icon::cached_process` call. -/
structure CPOut where
  result : RRes Icon
  cache : ImageCache
  persisted : Option (List Token)
  artifacts : List Path
  renders : Nat
deriving DecidableEq, Repr

/-- Rust `Icon::cached_process` (xdg.rs:298): take the file stem of the
candidate path (panicking when it has none), write the cache entry
`(stem, size) ↦ source path` if that key is absent and persist the
snapshot, then rasterize when the candidate is an SVG (the
`Icon::from_path(...).unwrap()` on the freshly produced png path is a
panic branch), passing every other kind through unchanged. -/
def Icon.cached_process (w : World) (c : ImageCache) (arts : List Path)
    (i : Icon) (size : Nat) : CPOut :=
  match fileStemOpt i.path with
  | none => ⟨RRes.panic, c, none, arts, 0⟩
  | some stem =>
    match ImageCache.insert_and_persist w c (stem, size) i.path with
    | Except.error () => ⟨RRes.panic, c, none, arts, 0⟩
    | Except.ok (c2, persisted) =>
      match i.icon_type with
      | IconType.Svg =>
        match (get_png_from_svg w arts i.path size).result with
        | RRes.ok p =>
          match Icon.from_path p size with
          | some ic =>
            ⟨RRes.ok ic, c2, persisted, (get_png_from_svg w arts i.path size).artifacts,
              (get_png_from_svg w arts i.path size).renders⟩
          | none =>
            ⟨RRes.panic, c2, persisted, (get_png_from_svg w arts i.path size).artifacts,
              (get_png_from_svg w arts i.path size).renders⟩
        | RRes.err e =>
          ⟨RRes.err e, c2, persisted, (get_png_from_svg w arts i.path size).artifacts,
            (get_png_from_svg w arts i.path size).renders⟩
        | RRes.panic =>
          ⟨RRes.panic, c2, persisted, (get_png_from_svg w arts i.path size).artifacts,
            (get_png_from_svg w arts i.path size).renders⟩
      | _ => ⟨RRes.ok i, c2, persisted, arts, 0⟩

/-!
The resolver, `DesktopFile::get_icon` (xdg.rs:215-267) and
`Application::icon` (application.rs:34-45).
-/

/-- Rust `DesktopFile` from xdg.rs (the parsed desktop entry record). -/
structure DesktopFile where
  path : Path
  name : Option String
  command : Option String
  categories : List String
  icon : Option String
  no_display : Bool
deriving Repr

/-- Rust `ICON_SIZES` (xdg.rs:212): the descending fallback size ladder. -/
def ICON_SIZES : List Nat := [512, 256, 128, 64, 48, 32, 24]

/-- The fallback loop over `ICON_SIZES` (xdg.rs:254-265): query the theme
at each ladder size, classify a hit at `pref`, return the first icon that
classifies, counting every theme query made. -/
def themeLadder (w : World) (iconName : String) (pref : Nat) :
    List Nat → Option Icon × Nat
  | [] => (none, 0)
  | s :: rest =>
    match w.themeLookup iconName s with
    | some p =>
      match Icon.from_path p pref with
      | some i => (some i, 1)
      | none =>
        ((themeLadder w iconName pref rest).1, (themeLadder w iconName pref rest).2 + 1)
    | none =>
      ((themeLadder w iconName pref rest).1, (themeLadder w iconName pref rest).2 + 1)

/-- The exact-path stage of `DesktopFile::get_icon` (xdg.rs:218-223):
the icon name joined onto the entry's own path, accepted when it exists
and classifies. -/
def exactStep (w : World) (f : DesktopFile) (iconName : String)
    (pref : Nat) : Option Icon :=
  if w.fsExists (pathJoin f.path iconName) then
    Icon.from_path (pathJoin f.path iconName) pref
  else none

/-- The persistent-cache stage of `DesktopFile::get_icon`
(xdg.rs:225-236): the cached path at `(icon name, preferred size)`,
accepted when present, still existing, and classifying. -/
def cacheStep (w : World) (c : ImageCache) (iconName : String)
    (pref : Nat) : Option Icon :=
  match c.lookup (iconName, pref) with
  | some cp => if w.fsExists cp then Icon.from_path cp pref else none
  | none => none

/-- Rust `DesktopFile::get_icon` (xdg.rs:215): exact-path candidate, then the
persistent-cache candidate, then a theme query at the preferred size,
then the `ICON_SIZES` ladder; each stage falls through on any failure.
Returns the icon, if any, and the number of theme-adapter queries
made. -/
def DesktopFile.get_icon (w : World) (c : ImageCache) (f : DesktopFile)
    (pref : Nat) : Option Icon × Nat :=
  match f.icon with
  | none => (none, 0)
  | some iconName =>
    match exactStep w f iconName pref with
    | some icon => (some icon, 0)
    | none =>
      match cacheStep w c iconName pref with
      | some icon => (some icon, 0)
      | none =>
        match w.themeLookup iconName pref with
        | some p =>
          match Icon.from_path p pref with
          | some i => (some i, 1)
          | none =>
            ((themeLadder w iconName pref ICON_SIZES).1,
              (themeLadder w iconName pref ICON_SIZES).2 + 1)
        | none =>
          ((themeLadder w iconName pref ICON_SIZES).1,
            (themeLadder w iconName pref ICON_SIZES).2 + 1)

/-- Full observable outcome of one `Application::icon` call: the
resolved icon (`Except.error ()` when `cached_process` panicked, the
inner `none` both when no candidate resolved and when post-processing
returned an io error, which `.ok()` discards), the cache afterwards, the
snapshot write of this call, the artifact files afterwards, and the
render / theme-query counts. -/
structure ResolveOut where
  res : Except Unit (Option Icon)
  cache : ImageCache
  persisted : Option (List Token)
  artifacts : List Path
  renders : Nat
  themeQueries : Nat
deriving Repr

/-- The candidate selection of `Application::icon`: the single optional
candidate from `get_icon` (whose `max_by_key` is the identity), with the
`prefer_3d` pass that keeps a Gltf candidate and otherwise falls back to
the same optional candidate. -/
def selectIcon (raw : Option Icon) (prefer3d : Bool) : Option Icon :=
  if prefer3d then
    match raw with
    | some i => if i.icon_type = IconType.Gltf then some i else raw
    | none => none
  else raw

/-- Rust `Application::icon` (application.rs:34): resolve via
`DesktopFile::get_icon`, optionally prefer a 3D candidate, then
post-process with `cached_process` at the preferred size; `.ok()` turns
an io error into `none` while a panic propagates. -/
def Application.icon (w : World) (c : ImageCache) (arts : List Path)
    (df : DesktopFile) (pref : Nat) (prefer3d : Bool) : ResolveOut :=
  match selectIcon (DesktopFile.get_icon w c df pref).1 prefer3d with
  | none => ⟨Except.ok none, c, none, arts, 0, (DesktopFile.get_icon w c df pref).2⟩
  | some i =>
    match (Icon.cached_process w c arts i pref).result with
    | RRes.ok ic =>
      ⟨Except.ok (some ic), (Icon.cached_process w c arts i pref).cache,
        (Icon.cached_process w c arts i pref).persisted,
        (Icon.cached_process w c arts i pref).artifacts,
        (Icon.cached_process w c arts i pref).renders,
        (DesktopFile.get_icon w c df pref).2⟩
    | RRes.err _ =>
      ⟨Except.ok none, (Icon.cached_process w c arts i pref).cache,
        (Icon.cached_process w c arts i pref).persisted,
        (Icon.cached_process w c arts i pref).artifacts,
        (Icon.cached_process w c arts i pref).renders,
        (DesktopFile.get_icon w c df pref).2⟩
    | RRes.panic =>
      ⟨Except.error (), (Icon.cached_process w c arts i pref).cache,
        (Icon.cached_process w c arts i pref).persisted,
        (Icon.cached_process w c arts i pref).artifacts,
        (Icon.cached_process w c arts i pref).renders,
        (DesktopFile.get_icon w c df pref).2⟩

/-- The exact-path candidate as the spec words it: the icon name
interpreted relative to the entry's own DIRECTORY (the parent of the
entry file). The code model above instead joins onto the entry file's
own path (`DesktopFile.get_icon` uses `pathJoin f.path iconName`); this
definition exists only to compare the two. -/
def specExactCandidate (entryPath : Path) (iconName : String) : Path :=
  pathJoin (parentDir entryPath) iconName

/-!
Concrete environments used to instantiate the theorems below on explicit
inputs.
-/

/-- A world with an empty filesystem, no theme hits, all SVG sources of
length 10 that parse, and all writes succeeding. -/
def baseWorld : World where
  fsExists := fun _ => false
  themeLookup := fun _ _ => none
  byteLen := fun _ => 10
  parses := fun _ => true
  renderOk := fun _ => true
  serOk := true
  writeOk := true
  cacheDir := "cache"

/-- Only `p.xyz` exists; the theme index answers every query. -/
def wCacheXyz : World :=
  { baseWorld with
    fsExists := fun p => p = "p.xyz"
    themeLookup := fun _ _ => some "t.png" }

/-- Only `p.png` exists; the theme index answers every query. -/
def wCacheHit : World :=
  { baseWorld with
    fsExists := fun p => p = "p.png"
    themeLookup := fun _ _ => some "t.png" }

/-- The SVG source and its rasterized artifact both exist. -/
def wArtifactHit : World :=
  { baseWorld with
    fsExists := fun p => p = "a.svg" || p = "cache/a.svg-10-64.png" }

/-- Only the SVG source exists. -/
def wSvgOnly : World :=
  { baseWorld with fsExists := fun p => p = "a.svg" }

/-- Only `test.png` exists. -/
def wExact : World :=
  { baseWorld with fsExists := fun p => p = "test.png" }

/-- Only `apps/ic.png` exists. -/
def wSpecDir : World :=
  { baseWorld with fsExists := fun p => p = "apps/ic.png" }

/-- Only `d/e.desktop/ic.png` exists. -/
def wEntryPath : World :=
  { baseWorld with fsExists := fun p => p = "d/e.desktop/ic.png" }

/-- Snapshot writes fail. -/
def wNoWrite : World :=
  { baseWorld with writeOk := false }

/-- An empty cache persisted at `cp`. -/
def emptyCache : ImageCache := ⟨"cp", []⟩

/-- A cache holding `("m", 32) ↦ q.png`. -/
def cacheM32 : ImageCache := ⟨"cp", [(("m", 32), "q.png")]⟩

/-- A cache holding `("n", 64) ↦ p.xyz`. -/
def cacheN64xyz : ImageCache := ⟨"cp", [(("n", 64), "p.xyz")]⟩

/-- A cache holding `("n", 64) ↦ p.png`. -/
def cacheN64png : ImageCache := ⟨"cp", [(("n", 64), "p.png")]⟩

/-- An entry at `apps/foo.desktop` whose icon name is `n`. -/
def dfN : DesktopFile := ⟨"apps/foo.desktop", none, none, [], some "n", false⟩

/-- An entry at the empty path whose icon name is `test.png`. -/
def dfTestPng : DesktopFile := ⟨"", none, none, [], some "test.png", false⟩

/-- An entry at `apps/foo.desktop` whose icon name is `ic.png`. -/
def dfIc : DesktopFile := ⟨"apps/foo.desktop", none, none, [], some "ic.png", false⟩

/-- An entry at `d/e.desktop` whose icon name is `ic.png`. -/
def dfIc2 : DesktopFile := ⟨"d/e.desktop", none, none, [], some "ic.png", false⟩

/-- An entry with no icon name. -/
def dfNoIcon : DesktopFile := ⟨"d/e.desktop", some "X", some "x", [], none, false⟩

end Protostar

namespace Protostar

/-! ### Lemmas about the splitter and paths -/

theorem splitOnChar_ne_nil (c : Char) (l : List Char) : splitOnChar c l ≠ [] := by
  induction l with
  | nil => simp [splitOnChar]
  | cons x xs ih =>
    by_cases hx : x = c
    · simp [splitOnChar, hx]
    · simp only [splitOnChar, if_neg hx]
      cases h : splitOnChar c xs with
      | nil => simp
      | cons a t => simp

theorem splitOnChar_append (c : Char) (x y : List Char) :
    splitOnChar c (x ++ c :: y) = splitOnChar c x ++ splitOnChar c y := by
  induction x with
  | nil => simp [splitOnChar]
  | cons a xs ih =>
    by_cases ha : a = c
    · simp [splitOnChar, ha, ih]
    · simp only [List.cons_append, splitOnChar, if_neg ha, List.append_eq]
      rw [ih]
      cases h : splitOnChar c xs with
      | nil => exact absurd h (splitOnChar_ne_nil c xs)
      | cons hd t => simp

theorem splitOnChar_of_not_mem (c : Char) (l : List Char) (h : c ∉ l) :
    splitOnChar c l = [l] := by
  induction l with
  | nil => simp [splitOnChar]
  | cons a xs ih =>
    have ha : ¬a = c := fun e => h (e ▸ List.mem_cons_self a xs)
    have hxs : c ∉ xs := fun hm => h (List.mem_cons_of_mem _ hm)
    simp only [splitOnChar, if_neg ha, ih hxs]

theorem not_mem_of_mem_splitOnChar (c : Char) (l : List Char) :
    ∀ m ∈ splitOnChar c l, c ∉ m := by
  induction l with
  | nil =>
    intro m hm
    simp [splitOnChar] at hm
    simp [hm]
  | cons a xs ih =>
    intro m hm
    by_cases ha : a = c
    · simp only [splitOnChar, if_pos ha, List.mem_cons] at hm
      cases hm with
      | inl h => simp [h]
      | inr h => exact ih m h
    · simp only [splitOnChar, if_neg ha] at hm
      cases hs : splitOnChar c xs with
      | nil => exact absurd hs (splitOnChar_ne_nil c xs)
      | cons hd t =>
        rw [hs] at hm
        simp only [List.mem_cons] at hm
        cases hm with
        | inl h =>
          subst h
          intro hcm
          cases List.mem_cons.mp hcm with
          | inl h2 => exact ha h2.symm
          | inr h2 => exact ih hd (hs ▸ List.mem_cons_self hd t) h2
        | inr h => exact ih m (hs ▸ List.mem_cons_of_mem hd h)

theorem eq_of_splitOnChar_single (c : Char) (l m : List Char)
    (h : splitOnChar c l = [m]) : l = m := by
  induction l generalizing m with
  | nil =>
    simp [splitOnChar] at h
    exact h.symm
  | cons a xs ih =>
    by_cases ha : a = c
    · simp only [splitOnChar, if_pos ha] at h
      have := splitOnChar_ne_nil c xs
      simp at h
      exact absurd h.2 this
    · simp only [splitOnChar, if_neg ha] at h
      cases hs : splitOnChar c xs with
      | nil => exact absurd hs (splitOnChar_ne_nil c xs)
      | cons hd t =>
        rw [hs] at h
        simp at h
        rw [ih hd (by rw [hs, h.2]), h.1]

/-! ### Lemmas about decimal digits -/

theorem decDigitChar_ne_slash (d : Nat) (hd : d < 10) : decDigitChar d ≠ '/' := by
  interval_cases d <;> decide

theorem slash_not_mem_decDigitsAux (f : Nat) :
    ∀ n, '/' ∉ decDigitsAux f n := by
  induction f with
  | zero => intro n; simp [decDigitsAux]
  | succ f ih =>
    intro n
    simp only [decDigitsAux]
    split
    · rename_i hn
      simp only [List.mem_singleton]
      exact fun e => decDigitChar_ne_slash n hn e.symm
    · simp only [List.mem_append, List.mem_singleton]
      intro h
      cases h with
      | inl h => exact ih (n / 10) h
      | inr h =>
        exact decDigitChar_ne_slash (n % 10) (Nat.mod_lt n (by omega)) h.symm

theorem slash_not_mem_natToString (n : Nat) : '/' ∉ (natToString n).data :=
  slash_not_mem_decDigitsAux (n + 1) n

/-! ### Lemmas about the snapshot codec -/

theorem decEntries_encEntries (es : List (CacheKey × Path)) (r : List Token) :
    decEntries es.length ((es.map encEntry).flatten ++ r) = some (es, r) := by
  induction es with
  | nil => simp [decEntries]
  | cons e t ih =>
    obtain ⟨⟨nm, sz⟩, p⟩ := e
    simp [decEntries, encEntry, ih]

theorem decCache_encCache (c : ImageCache) : decCache (encCache c) = some c := by
  obtain ⟨p, m⟩ := c
  have h := decEntries_encEntries m []
  rw [List.append_nil] at h
  simp [decCache, encCache, h]

/-! ### Lemmas about the cache table -/

theorem lookup_insertKV_self (c : ImageCache) (k : CacheKey) (v : Path) :
    (c.insertKV k v).lookup k = some v := by
  simp [ImageCache.lookup, ImageCache.insertKV, List.find?]

theorem containsKey_insertKV_self (c : ImageCache) (k : CacheKey) (v : Path) :
    (c.insertKV k v).containsKey k = true := by
  simp [ImageCache.containsKey, ImageCache.insertKV]

theorem containsKey_of_insert_and_persist_ok (w : World) (c c1 : ImageCache)
    (k : CacheKey) (v : Path) (out : Option (List Token))
    (h : ImageCache.insert_and_persist w c k v = Except.ok (c1, out)) :
    c1.containsKey k = true := by
  unfold ImageCache.insert_and_persist at h
  by_cases hc : c.containsKey k = true
  · rw [if_pos hc] at h
    cases h
    exact hc
  · rw [if_neg hc] at h
    cases hs : (c.insertKV k v).save w with
    | ok toks =>
      rw [hs] at h
      cases h
      exact containsKey_insertKV_self c k v
    | error e =>
      rw [hs] at h
      cases h

/-! ### Lemmas about file names and the artifact address -/

theorem fileNameOpt_props (p : Path) (nm : String) (h : fileNameOpt p = some nm) :
    nm.data ≠ [] ∧ '/' ∉ nm.data := by
  unfold fileNameOpt at h
  split at h
  · exact absurd h (by simp)
  · rename_i comp heq
    split at h
    · exact absurd h (by simp)
    · have hnm : nm = String.mk comp := by
        cases h
        rfl
      have hmem : comp ∈ (splitOnChar '/' p.data).filter
          (fun c => decide (c ≠ [] ∧ c ≠ ['.'])) := by
        have : comp ∈ ((splitOnChar '/' p.data).filter
            (fun c => decide (c ≠ [] ∧ c ≠ ['.']))).getLast? := heq ▸ rfl
        obtain ⟨hne, hLast⟩ := List.mem_getLast?_eq_getLast this
        exact hLast ▸ List.getLast_mem hne
      have hmem2 := List.mem_filter.mp hmem
      have hcomp_ne : comp ≠ [] := by
        have := hmem2.2
        simp at this
        exact this.1
      refine ⟨?_, ?_⟩
      · rw [hnm]
        exact hcomp_ne
      · rw [hnm]
        exact not_mem_of_mem_splitOnChar '/' p.data comp hmem2.1

theorem lastComponent_pathJoin (d s : Path) (h1 : isAbsolute s = false)
    (h2 : '/' ∉ s.data) : lastComponent (pathJoin d s) = s := by
  unfold pathJoin
  rw [h1]
  simp only [Bool.false_eq_true, if_false]
  by_cases hd : d = ""
  · rw [if_pos hd]
    unfold lastComponent
    rw [splitOnChar_of_not_mem '/' s.data h2]
    rfl
  · rw [if_neg hd]
    unfold lastComponent
    have hdata : (d ++ "/" ++ s).data = d.data ++ '/' :: s.data := by
      rw [String.data_append, String.data_append]
      have hslash : ("/" : String).data = ['/'] := by decide
      rw [hslash, List.append_assoc]
      rfl
    rw [hdata, splitOnChar_append, splitOnChar_of_not_mem '/' s.data h2]
    have hlast : (splitOnChar '/' d.data ++ [s.data]).getLast? = some s.data := by
      rw [List.getLast?_append_of_ne_nil _ (by simp)]
      rfl
    rw [List.getLastD_eq_getLast?, hlast]
    rfl

theorem extensionOfName_append_png (A : List Char) (hA : A ≠ []) :
    extensionOfName (String.mk (A ++ '.' :: ['p', 'n', 'g'])) = some "png" := by
  have hsplit : splitOnChar '.' (A ++ '.' :: ['p', 'n', 'g']) =
      splitOnChar '.' A ++ [['p', 'n', 'g']] := by
    rw [splitOnChar_append, splitOnChar_of_not_mem '.' ['p', 'n', 'g'] (by decide)]
  cases hs : splitOnChar '.' A with
  | nil => exact absurd hs (splitOnChar_ne_nil '.' A)
  | cons a0 rest0 =>
    cases rest0 with
    | nil =>
      have ha0 : a0 = A := (eq_of_splitOnChar_single '.' A a0 hs).symm
      subst ha0
      simp only [extensionOfName, hsplit, hs, List.cons_append, List.nil_append]
      rw [if_neg (by simp [hA])]
      rfl
    | cons r1 rs =>
      simp only [extensionOfName, hsplit, hs, List.cons_append]
      rw [if_neg (by simp)]
      have hre : a0 :: r1 :: (rs ++ [['p', 'n', 'g']]) =
          (a0 :: r1 :: rs) ++ [['p', 'n', 'g']] := by simp
      rw [hre, List.getLastD_eq_getLast?,
        List.getLast?_append_of_ne_nil _ (by simp)]
      rfl

theorem isAbsolute_eq_false (t : String) (c : Char) (r : List Char)
    (ht : t.data = c :: r) (hc : c ≠ '/') : isAbsolute t = false := by
  unfold isAbsolute
  rw [ht]
  simp [hc]

theorem extension_pngAddress (w : World) (p : Path) (nm : String) (len size : Nat)
    (h : fileNameOpt p = some nm) :
    extension (pngAddress w nm len size) = some "png" := by
  obtain ⟨hne, hslash⟩ := fileNameOpt_props p nm h
  have hdash : ("-" : String).data = ['-'] := by decide
  have hpng : (".png" : String).data = ['.', 'p', 'n', 'g'] := by decide
  have hsdata : (nm ++ "-" ++ natToString len ++ "-" ++ natToString size ++ ".png").data =
      (nm.data ++ '-' :: ((natToString len).data ++ '-' :: (natToString size).data)) ++
        '.' :: ['p', 'n', 'g'] := by
    simp [String.data_append, hdash, hpng]
  have hA : nm.data ++ '-' :: ((natToString len).data ++ '-' :: (natToString size).data) ≠
      ([] : List Char) := by
    simp
  have hs2 : '/' ∉ (nm ++ "-" ++ natToString len ++ "-" ++ natToString size ++ ".png").data := by
    intro hmem
    rw [hsdata] at hmem
    simp only [List.mem_append, List.mem_cons, List.not_mem_nil, or_false] at hmem
    rcases hmem with (h1 | h1 | h1 | h1 | h1) | (h1 | h1 | h1 | h1)
    · exact hslash h1
    · exact absurd h1 (by decide)
    · exact slash_not_mem_natToString len h1
    · exact absurd h1 (by decide)
    · exact slash_not_mem_natToString size h1
    · exact absurd h1 (by decide)
    · exact absurd h1 (by decide)
    · exact absurd h1 (by decide)
    · exact absurd h1 (by decide)
  have habs : isAbsolute (nm ++ "-" ++ natToString len ++ "-" ++ natToString size ++ ".png") =
      false := by
    cases hnm : nm.data with
    | nil => exact absurd hnm hne
    | cons c cs =>
      have hc : c ≠ '/' := by
        intro e
        exact hslash (by rw [hnm, e]; exact List.mem_cons_self '/' cs)
      refine isAbsolute_eq_false _ c
        (cs ++ '-' :: ((natToString len).data ++ '-' :: (natToString size).data) ++
          '.' :: ['p', 'n', 'g']) ?_ hc
      rw [hsdata, hnm]
      simp
  unfold pngAddress
  rw [extension, lastComponent_pathJoin w.cacheDir _ habs hs2]
  have hrepr : nm ++ "-" ++ natToString len ++ "-" ++ natToString size ++ ".png" =
      String.mk ((nm.data ++ '-' :: ((natToString len).data ++ '-' :: (natToString size).data)) ++
        '.' :: ['p', 'n', 'g']) := by
    apply String.ext
    rw [hsdata]
  rw [hrepr]
  exact extensionOfName_append_png _ hA

/-! ### Lemmas about the rasterizer -/

theorem get_png_hit (w : World) (arts : List Path) (src : Path) (size : Nat)
    (nm : String) (h1 : pathLive w arts src = true) (h2 : w.parses src = true)
    (h3 : fileNameOpt src = some nm)
    (h4 : pathLive w arts (pngAddress w nm (w.byteLen src) size) = true) :
    get_png_from_svg w arts src size =
      ⟨RRes.ok (pngAddress w nm (w.byteLen src) size), arts, 1, 0⟩ := by
  simp [get_png_from_svg, h1, h2, h3, h4]

theorem get_png_ok_cases (w : World) (arts : List Path) (src : Path) (size : Nat)
    (p : Path) (h : (get_png_from_svg w arts src size).result = RRes.ok p) :
    ∃ nm, pathLive w arts src = true ∧ w.parses src = true ∧
      fileNameOpt src = some nm ∧ p = pngAddress w nm (w.byteLen src) size ∧
      ((pathLive w arts p = true ∧
          get_png_from_svg w arts src size = ⟨RRes.ok p, arts, 1, 0⟩) ∨
        (w.renderOk p = true ∧
          get_png_from_svg w arts src size = ⟨RRes.ok p, p :: arts, 1, 1⟩)) := by
  by_cases h1 : pathLive w arts src = true
  · by_cases h2 : w.parses src = true
    · cases h3 : fileNameOpt src with
      | none =>
        rw [show get_png_from_svg w arts src size = ⟨RRes.panic, arts, 1, 0⟩ from
          by simp [get_png_from_svg, h1, h2, h3]] at h
        exact absurd h (by simp)
      | some nm =>
        by_cases h4 : pathLive w arts (pngAddress w nm (w.byteLen src) size) = true
        · have hE : get_png_from_svg w arts src size =
              ⟨RRes.ok (pngAddress w nm (w.byteLen src) size), arts, 1, 0⟩ := by
            simp [get_png_from_svg, h1, h2, h3, h4]
          rw [hE] at h
          simp only at h
          cases h
          exact ⟨nm, h1, h2, rfl, rfl, Or.inl ⟨h4, hE⟩⟩
        · by_cases h5 : w.renderOk (pngAddress w nm (w.byteLen src) size) = true
          · have hE : get_png_from_svg w arts src size =
                ⟨RRes.ok (pngAddress w nm (w.byteLen src) size),
                  pngAddress w nm (w.byteLen src) size :: arts, 1, 1⟩ := by
              simp [get_png_from_svg, h1, h2, h3, h4, h5]
            rw [hE] at h
            simp only at h
            cases h
            exact ⟨nm, h1, h2, rfl, rfl, Or.inr ⟨h5, hE⟩⟩
          · rw [show get_png_from_svg w arts src size =
                ⟨RRes.err RastErr.writeFailed, arts, 1, 1⟩ from
              by simp [get_png_from_svg, h1, h2, h3, h4, h5]] at h
            exact absurd h (by simp)
    · rw [show get_png_from_svg w arts src size =
          ⟨RRes.err RastErr.malformedDocument, arts, 1, 0⟩ from
        by simp [get_png_from_svg, h1, h2]] at h
      exact absurd h (by simp)
  · rw [show get_png_from_svg w arts src size =
        ⟨RRes.err RastErr.sourceUnreadable, arts, 0, 0⟩ from
      by simp [get_png_from_svg, h1]] at h
    exact absurd h (by simp)

theorem get_png_artifacts_extend (w : World) (arts : List Path) (src : Path)
    (size : Nat) (q : Path) (hq : pathLive w arts q = true) :
    pathLive w (get_png_from_svg w arts src size).artifacts q = true := by
  by_cases h1 : pathLive w arts src = true
  · by_cases h2 : w.parses src = true
    · cases h3 : fileNameOpt src with
      | none => simpa [get_png_from_svg, h1, h2, h3] using hq
      | some nm =>
        by_cases h4 : pathLive w arts (pngAddress w nm (w.byteLen src) size) = true
        · simpa [get_png_from_svg, h1, h2, h3, h4] using hq
        · by_cases h5 : w.renderOk (pngAddress w nm (w.byteLen src) size) = true
          · simp only [get_png_from_svg, h1, h2, h3, h4, h5]
            simp [pathLive] at hq ⊢
            tauto
          · simpa [get_png_from_svg, h1, h2, h3, h4, h5] using hq
    · simpa [get_png_from_svg, h1, h2] using hq
  · simpa [get_png_from_svg, h1] using hq

/-! ### Lemmas about `Icon.from_path` -/

theorem from_path_of_extension_png (q : Path) (s : Nat)
    (h : extension q = some "png") :
    Icon.from_path q s = some ⟨IconType.Png, q, s⟩ := by
  simp [Icon.from_path, h]

theorem from_path_some_inv (q : Path) (s : Nat) (j : Icon)
    (h : Icon.from_path q s = some j) : j.path = q ∧ j.size = s := by
  unfold Icon.from_path at h
  split_ifs at h with h1 h2 h3 <;> cases h <;> exact ⟨rfl, rfl⟩

theorem from_path_isSome_iff (q : Path) (s : Nat) :
    (Icon.from_path q s).isSome = true ↔
      (extension q = some "png" ∨ extension q = some "svg" ∨
        extension q = some "glb" ∨ extension q = some "gltf") := by
  unfold Icon.from_path
  split_ifs with h1 h2 h3 <;> simp_all

/-! ### Lemmas about saving and `insert_and_persist` -/

theorem save_eq_ok (w : World) (c : ImageCache) (hser : w.serOk = true)
    (hwr : w.writeOk = true) : c.save w = Except.ok (encCache c) := by
  simp [ImageCache.save, hser, hwr]

theorem save_eq_error (w : World) (c : ImageCache)
    (hfail : w.serOk = false ∨ w.writeOk = false) :
    c.save w = Except.error () := by
  rcases hfail with h | h
  · simp [ImageCache.save, h]
  · cases hs : w.serOk <;> simp [ImageCache.save, hs, h]

theorem insert_and_persist_absent (w : World) (c : ImageCache) (k : CacheKey)
    (v : Path) (habs : c.containsKey k = false) (hser : w.serOk = true)
    (hwr : w.writeOk = true) :
    ImageCache.insert_and_persist w c k v =
      Except.ok (c.insertKV k v, some (encCache (c.insertKV k v))) := by
  simp [ImageCache.insert_and_persist, habs, save_eq_ok w _ hser hwr]

theorem insert_and_persist_present (w : World) (c : ImageCache) (k : CacheKey)
    (v : Path) (hpres : c.containsKey k = true) :
    ImageCache.insert_and_persist w c k v = Except.ok (c, none) := by
  simp [ImageCache.insert_and_persist, hpres]

/-! ### Lemmas about `Icon.cached_process` -/

theorem cached_process_writes (w : World) (c : ImageCache) (arts : List Path)
    (i : Icon) (size : Nat) (stem : String)
    (hstem : fileStemOpt i.path = some stem)
    (habs : c.containsKey (stem, size) = false)
    (hser : w.serOk = true) (hwr : w.writeOk = true) :
    (Icon.cached_process w c arts i size).cache = c.insertKV (stem, size) i.path ∧
    (Icon.cached_process w c arts i size).persisted =
      some (encCache (c.insertKV (stem, size) i.path)) := by
  have hiap := insert_and_persist_absent w c (stem, size) i.path habs hser hwr
  cases ht : i.icon_type with
  | Svg =>
    cases hr : (get_png_from_svg w arts i.path size).result with
    | ok p =>
      cases hfp : Icon.from_path p size with
      | some ic =>
        refine ⟨?_, ?_⟩ <;> simp [Icon.cached_process, hstem, hiap, ht, hr, hfp]
      | none =>
        refine ⟨?_, ?_⟩ <;> simp [Icon.cached_process, hstem, hiap, ht, hr, hfp]
    | err e =>
      refine ⟨?_, ?_⟩ <;> simp [Icon.cached_process, hstem, hiap, ht, hr]
    | panic =>
      refine ⟨?_, ?_⟩ <;> simp [Icon.cached_process, hstem, hiap, ht, hr]
  | Png => refine ⟨?_, ?_⟩ <;> simp [Icon.cached_process, hstem, hiap, ht]
  | Gltf => refine ⟨?_, ?_⟩ <;> simp [Icon.cached_process, hstem, hiap, ht]

theorem cached_process_ok_svg (w : World) (c : ImageCache) (arts : List Path)
    (i : Icon) (size : Nat) (ic : Icon)
    (hok : (Icon.cached_process w c arts i size).result = RRes.ok ic)
    (ht : i.icon_type = IconType.Svg) :
    ∃ nm, fileNameOpt i.path = some nm ∧
      ic = ⟨IconType.Png, pngAddress w nm (w.byteLen i.path) size, size⟩ ∧
      pathLive w (Icon.cached_process w c arts i size).artifacts ic.path = true := by
  cases hstem : fileStemOpt i.path with
  | none =>
    rw [show Icon.cached_process w c arts i size = ⟨RRes.panic, c, none, arts, 0⟩ from
      by simp [Icon.cached_process, hstem]] at hok
    exact absurd hok (by simp)
  | some stem =>
    cases hiap : ImageCache.insert_and_persist w c (stem, size) i.path with
    | error e =>
      rw [show Icon.cached_process w c arts i size = ⟨RRes.panic, c, none, arts, 0⟩ from
        by simp [Icon.cached_process, hstem, hiap]] at hok
      exact absurd hok (by simp)
    | ok pr =>
      obtain ⟨c2, persisted⟩ := pr
      cases hr : (get_png_from_svg w arts i.path size).result with
      | ok p =>
        obtain ⟨nm, hlive, hparse, hnm, rfl, hdisj⟩ :=
          get_png_ok_cases w arts i.path size p hr
        have hext := extension_pngAddress w i.path nm (w.byteLen i.path) size hnm
        have hfp := from_path_of_extension_png _ size hext
        have hE : Icon.cached_process w c arts i size =
            ⟨RRes.ok ⟨IconType.Png, pngAddress w nm (w.byteLen i.path) size, size⟩,
              c2, persisted, (get_png_from_svg w arts i.path size).artifacts,
              (get_png_from_svg w arts i.path size).renders⟩ := by
          simp [Icon.cached_process, hstem, hiap, ht, hr, hfp]
        rw [hE] at hok
        simp only at hok
        cases hok
        refine ⟨nm, hnm, rfl, ?_⟩
        rw [hE]
        rcases hdisj with ⟨hl, hE2⟩ | ⟨hrk, hE2⟩
        · rw [hE2]
          exact hl
        · rw [hE2]
          simp [pathLive]
      | err e =>
        rw [show (Icon.cached_process w c arts i size).result = RRes.err e from
          by simp [Icon.cached_process, hstem, hiap, ht, hr]] at hok
        exact absurd hok (by simp)
      | panic =>
        rw [show (Icon.cached_process w c arts i size).result = RRes.panic from
          by simp [Icon.cached_process, hstem, hiap, ht, hr]] at hok
        exact absurd hok (by simp)

theorem cached_process_ok_nonsvg (w : World) (c : ImageCache) (arts : List Path)
    (i : Icon) (size : Nat) (ic : Icon)
    (hok : (Icon.cached_process w c arts i size).result = RRes.ok ic)
    (ht : i.icon_type ≠ IconType.Svg) : ic = i := by
  cases hstem : fileStemOpt i.path with
  | none =>
    rw [show Icon.cached_process w c arts i size = ⟨RRes.panic, c, none, arts, 0⟩ from
      by simp [Icon.cached_process, hstem]] at hok
    exact absurd hok (by simp)
  | some stem =>
    cases hiap : ImageCache.insert_and_persist w c (stem, size) i.path with
    | error e =>
      rw [show Icon.cached_process w c arts i size = ⟨RRes.panic, c, none, arts, 0⟩ from
        by simp [Icon.cached_process, hstem, hiap]] at hok
      exact absurd hok (by simp)
    | ok pr =>
      obtain ⟨c2, persisted⟩ := pr
      cases ht2 : i.icon_type with
      | Svg => exact absurd ht2 ht
      | Png =>
        rw [show (Icon.cached_process w c arts i size).result = RRes.ok i from
          by simp [Icon.cached_process, hstem, hiap, ht2]] at hok
        cases hok
        rfl
      | Gltf =>
        rw [show (Icon.cached_process w c arts i size).result = RRes.ok i from
          by simp [Icon.cached_process, hstem, hiap, ht2]] at hok
        cases hok
        rfl

/-! ### Lemma about the theme ladder -/

theorem themeLadder_none (w : World) (nm : String) (pref : Nat)
    (h : ∀ s, w.themeLookup nm s = none) :
    ∀ l, (themeLadder w nm pref l).1 = none := by
  intro l
  induction l with
  | nil => rfl
  | cons s rest ih => simp [themeLadder, h, ih]

/-! ### Lemmas about the resolver stages -/

theorem exactStep_some_inv (w : World) (f : DesktopFile) (nm : String)
    (pref : Nat) (j : Icon) (h : exactStep w f nm pref = some j) :
    w.fsExists (pathJoin f.path nm) = true ∧
    Icon.from_path (pathJoin f.path nm) pref = some j := by
  unfold exactStep at h
  by_cases hf : w.fsExists (pathJoin f.path nm) = true
  · rw [if_pos hf] at h
    exact ⟨hf, h⟩
  · rw [if_neg hf] at h
    exact absurd h (by simp)

theorem cacheStep_some_inv (w : World) (c : ImageCache) (nm : String)
    (pref : Nat) (j : Icon) (h : cacheStep w c nm pref = some j) :
    ∃ cp, c.lookup (nm, pref) = some cp ∧ w.fsExists cp = true ∧
      Icon.from_path cp pref = some j := by
  unfold cacheStep at h
  cases hl : c.lookup (nm, pref) with
  | none =>
    simp only [hl] at h
    exact absurd h (by simp)
  | some cp =>
    simp only [hl] at h
    by_cases hf : w.fsExists cp = true
    · rw [if_pos hf] at h
      exact ⟨cp, rfl, hf, h⟩
    · rw [if_neg hf] at h
      exact absurd h (by simp)

theorem cacheStep_of_hit (w : World) (c : ImageCache) (nm : String)
    (pref : Nat) (cp : Path) (j : Icon)
    (hl : c.lookup (nm, pref) = some cp) (hf : w.fsExists cp = true)
    (hfp : Icon.from_path cp pref = some j) :
    cacheStep w c nm pref = some j := by
  simp [cacheStep, hl, hf, hfp]

theorem get_icon_exact (w : World) (c : ImageCache) (df : DesktopFile)
    (pref : Nat) (nm : String) (j : Icon) (hicon : df.icon = some nm)
    (hex : exactStep w df nm pref = some j) :
    DesktopFile.get_icon w c df pref = (some j, 0) := by
  simp [DesktopFile.get_icon, hicon, hex]

theorem get_icon_cache (w : World) (c : ImageCache) (df : DesktopFile)
    (pref : Nat) (nm : String) (j : Icon) (hicon : df.icon = some nm)
    (hex : exactStep w df nm pref = none)
    (hcs : cacheStep w c nm pref = some j) :
    DesktopFile.get_icon w c df pref = (some j, 0) := by
  simp [DesktopFile.get_icon, hicon, hex, hcs]

theorem get_icon_no_candidate (w : World) (c : ImageCache) (df : DesktopFile)
    (pref : Nat) (nm : String) (hicon : df.icon = some nm)
    (hex : exactStep w df nm pref = none)
    (hcs : cacheStep w c nm pref = none) :
    DesktopFile.get_icon w c df pref =
      (match w.themeLookup nm pref with
       | some p =>
         match Icon.from_path p pref with
         | some i => (some i, 1)
         | none =>
           ((themeLadder w nm pref ICON_SIZES).1,
             (themeLadder w nm pref ICON_SIZES).2 + 1)
       | none =>
         ((themeLadder w nm pref ICON_SIZES).1,
           (themeLadder w nm pref ICON_SIZES).2 + 1)) := by
  simp [DesktopFile.get_icon, hicon, hex, hcs]

theorem get_icon_theme_pos (w : World) (c : ImageCache) (df : DesktopFile)
    (pref : Nat) (nm : String) (hicon : df.icon = some nm)
    (hex : exactStep w df nm pref = none)
    (hcs : cacheStep w c nm pref = none) :
    1 ≤ (DesktopFile.get_icon w c df pref).2 := by
  rw [get_icon_no_candidate w c df pref nm hicon hex hcs]
  cases htl : w.themeLookup nm pref with
  | some p =>
    cases hfp : Icon.from_path p pref with
    | some i => simp [htl, hfp]
    | none => simp [htl, hfp]
  | none => simp [htl]

/-! ### Claim theorems -/

/-- C1 counterexample: the cache holds the key `("n", 64)` and the
cached path `p.xyz` exists on disk, yet resolution still queries the
theme adapter (once), because the cached path's extension is not
recognized — refuting the claim's "the theme lookup adapter is never
queried". -/
theorem c1_counterexample :
    cacheN64xyz.lookup ("n", 64) = some "p.xyz" ∧
    wCacheXyz.fsExists "p.xyz" = true ∧
    (DesktopFile.get_icon wCacheXyz cacheN64xyz dfN 64).2 = 1 := by decide

/-- C1 (amended): candidates are evaluated exact-path first, then
persistent cache, then theme lookups, short-circuiting on first success;
in particular, when the cache holds the key, the cached path exists on
disk AND the cached path classifies (recognized extension), resolution
succeeds with zero theme-adapter queries; and when the theme index is
empty and the exact-path and cache stages fail, resolution returns
nothing. -/
theorem c1_resolution_order (w : World) (c : ImageCache) (df : DesktopFile)
    (pref : Nat) (nm : String) (cp : Path) (j : Icon)
    (hicon : df.icon = some nm) :
    (c.lookup (nm, pref) = some cp → w.fsExists cp = true →
      Icon.from_path cp pref = some j →
      ((DesktopFile.get_icon w c df pref).1.isSome = true ∧
        (DesktopFile.get_icon w c df pref).2 = 0)) ∧
    ((∀ n s, w.themeLookup n s = none) → exactStep w df nm pref = none →
      cacheStep w c nm pref = none →
      (DesktopFile.get_icon w c df pref).1 = none) := by
  constructor
  · intro hl hf hfp
    cases hex : exactStep w df nm pref with
    | some j2 =>
      rw [get_icon_exact w c df pref nm j2 hicon hex]
      simp
    | none =>
      rw [get_icon_cache w c df pref nm j hicon hex
        (cacheStep_of_hit w c nm pref cp j hl hf hfp)]
      simp
  · intro hnone hex hcs
    rw [get_icon_no_candidate w c df pref nm hicon hex hcs, hnone nm pref]
    simp [themeLadder_none w nm pref (fun s => hnone nm s) ICON_SIZES]

/-- Witness for C1: a valid cache hit resolves with zero theme
queries even though the theme index would answer. -/
theorem c1_witness :
    (DesktopFile.get_icon wCacheHit cacheN64png dfN 64).1.isSome = true ∧
    (DesktopFile.get_icon wCacheHit cacheN64png dfN 64).2 = 0 :=
  (c1_resolution_order wCacheHit cacheN64png dfN 64 "n" "p.png"
    ⟨IconType.Png, "p.png", 64⟩ rfl).1 (by decide) (by decide) (by decide)

/-- C2 counterexample: with the rasterized artifact already present at
the content address, the rasterizer returns that path without rendering,
but it still reads the source file (read count 1, not 0) — the byte
length is part of the address — refuting "without reading ... the
source file". -/
theorem c2_counterexample :
    pathLive wArtifactHit [] (pngAddress wArtifactHit "a.svg" 10 64) = true ∧
    (get_png_from_svg wArtifactHit [] "a.svg" 64).result =
      RRes.ok (pngAddress wArtifactHit "a.svg" 10 64) ∧
    (get_png_from_svg wArtifactHit [] "a.svg" 64).renders = 0 ∧
    (get_png_from_svg wArtifactHit [] "a.svg" 64).reads = 1 := by decide

/-- C2 (amended): if the artifact exists at the content address computed
from (source file name, source byte length, target size), the rasterizer
returns that path without invoking the renderer (though it still reads
and parses the source to compute the address), and a second call with
identical inputs returns the identical path without invoking the
renderer and without changing the artifact set. -/
theorem c2_rasterizer_cache (w : World) (arts : List Path) (src : Path)
    (size : Nat) (nm : String) (p : Path) :
    (pathLive w arts src = true → w.parses src = true →
      fileNameOpt src = some nm →
      pathLive w arts (pngAddress w nm (w.byteLen src) size) = true →
      get_png_from_svg w arts src size =
        ⟨RRes.ok (pngAddress w nm (w.byteLen src) size), arts, 1, 0⟩) ∧
    ((get_png_from_svg w arts src size).result = RRes.ok p →
      get_png_from_svg w (get_png_from_svg w arts src size).artifacts src size =
        ⟨RRes.ok p, (get_png_from_svg w arts src size).artifacts, 1, 0⟩) := by
  constructor
  · exact fun h1 h2 h3 h4 => get_png_hit w arts src size nm h1 h2 h3 h4
  · intro h
    obtain ⟨nm2, h1, h2, h3, rfl, hdisj⟩ := get_png_ok_cases w arts src size p h
    have h1b : pathLive w (get_png_from_svg w arts src size).artifacts src = true :=
      get_png_artifacts_extend w arts src size src h1
    have h4b : pathLive w (get_png_from_svg w arts src size).artifacts
        (pngAddress w nm2 (w.byteLen src) size) = true := by
      rcases hdisj with ⟨hl, hE2⟩ | ⟨hrk, hE2⟩
      · rw [hE2]
        exact hl
      · rw [hE2]
        simp [pathLive]
    exact get_png_hit w _ src size nm2 h1b h2 h3 h4b

/-- Witness for C2: an artifact hit, and idempotence of a second call
after a first rendering call. -/
theorem c2_witness :
    get_png_from_svg wArtifactHit [] "a.svg" 64 =
      ⟨RRes.ok (pngAddress wArtifactHit "a.svg" (wArtifactHit.byteLen "a.svg") 64),
        [], 1, 0⟩ ∧
    get_png_from_svg wSvgOnly (get_png_from_svg wSvgOnly [] "a.svg" 64).artifacts
        "a.svg" 64 =
      ⟨RRes.ok "cache/a.svg-10-64.png",
        (get_png_from_svg wSvgOnly [] "a.svg" 64).artifacts, 1, 0⟩ :=
  ⟨(c2_rasterizer_cache wArtifactHit [] "a.svg" 64 "a.svg" "x").1
      (by decide) (by decide) (by decide) (by decide),
    (c2_rasterizer_cache wSvgOnly [] "a.svg" 64 "a.svg" "cache/a.svg-10-64.png").2
      (by decide)⟩

/-- C3 counterexample: icon name `test.png` resolves via the exact path
with an empty cache (so the accepted candidate did not come from the
cache); a cache write happens, but it is keyed by the file stem
`("test", 64)`, not by the original icon name `("test.png", 64)` —
refuting "keyed exactly by (icon_name, preferred_size)". -/
theorem c3_counterexample :
    (Application.icon wExact emptyCache [] dfTestPng 64 false).res =
      Except.ok (some ⟨IconType.Png, "test.png", 64⟩) ∧
    emptyCache.map = [] ∧
    (Application.icon wExact emptyCache [] dfTestPng 64 false).persisted.isSome = true ∧
    (Application.icon wExact emptyCache [] dfTestPng 64 false).cache.lookup
      ("test.png", 64) = none ∧
    (Application.icon wExact emptyCache [] dfTestPng 64 false).cache.lookup
      ("test", 64) = some "test.png" :=
  ⟨rfl, rfl, rfl, rfl, rfl⟩

/-- C3 (amended): for every accepted candidate whose write key — the
candidate path's file stem paired with the preferred size — is absent
from the cache, the resolver writes and persists a cache entry at that
key whose value is the candidate's source path (not the rasterized
artifact path), and this holds regardless of whether post-processing
succeeds. -/
theorem c3_cache_write (w : World) (c : ImageCache) (arts : List Path)
    (df : DesktopFile) (pref : Nat) (b : Bool) (i : Icon) (stem : String)
    (hser : w.serOk = true) (hwr : w.writeOk = true)
    (hraw : (DesktopFile.get_icon w c df pref).1 = some i)
    (hstem : fileStemOpt i.path = some stem)
    (habs : c.containsKey (stem, pref) = false) :
    (Application.icon w c arts df pref b).cache.lookup (stem, pref) = some i.path ∧
    (Application.icon w c arts df pref b).persisted =
      some (encCache (c.insertKV (stem, pref) i.path)) := by
  have hsel : selectIcon (DesktopFile.get_icon w c df pref).1 b = some i := by
    cases b with
    | false => simpa [selectIcon] using hraw
    | true =>
      by_cases hg : i.icon_type = IconType.Gltf <;> simp [selectIcon, hraw, hg]
  obtain ⟨hcache, hpers⟩ := cached_process_writes w c arts i pref stem hstem habs hser hwr
  unfold Application.icon
  rw [hsel]
  split
  · rename_i heq
    exact absurd heq (by simp)
  · rename_i i2 heq
    injection heq with h2
    subst h2
    split <;> exact ⟨by simp [hcache, lookup_insertKV_self], by simp [hpers]⟩

/-- Witness for C3: the `test.png` resolution writes
`("test", 64) ↦ test.png`. -/
theorem c3_witness :
    (Application.icon wExact emptyCache [] dfTestPng 64 false).cache.lookup
        ("test", 64) = some (Icon.mk IconType.Png "test.png" 64).path ∧
    (Application.icon wExact emptyCache [] dfTestPng 64 false).persisted =
      some (encCache (emptyCache.insertKV ("test", 64)
        (Icon.mk IconType.Png "test.png" 64).path)) :=
  c3_cache_write wExact emptyCache [] dfTestPng 64 false
    ⟨IconType.Png, "test.png", 64⟩ "test" rfl rfl (by decide) (by decide) (by decide)

/-- C4 counterexample: the icon name `ic.png` interpreted relative to
the entry's own DIRECTORY (`apps/ic.png`) exists with a recognized
extension, yet resolution finds nothing — the code joins the icon name
onto the entry file's own path (`apps/foo.desktop/ic.png`), not its
parent directory — refuting the claimed acceptance condition. -/
theorem c4_counterexample :
    wSpecDir.fsExists (specExactCandidate "apps/foo.desktop" "ic.png") = true ∧
    extension (specExactCandidate "apps/foo.desktop" "ic.png") = some "png" ∧
    (DesktopFile.get_icon wSpecDir emptyCache dfIc 64).1 = none := by decide

/-- C4 (amended): the exact-path candidate is the icon name joined onto
the entry's own path (the desktop-entry file path itself, so an absolute
icon name stands alone), and resolution returns a zero-theme-query
result at exactly that path iff the path exists and its extension is one
of png, svg, glb, gltf; the extension determines the kind (png→Raster,
svg→Vector, glb/gltf→Model3D). -/
theorem c4_exact_candidate (w : World) (c : ImageCache) (df : DesktopFile)
    (pref : Nat) (nm : String) (hicon : df.icon = some nm) :
    ((∃ i, DesktopFile.get_icon w c df pref = (some i, 0) ∧
        i.path = pathJoin df.path nm) ↔
      (w.fsExists (pathJoin df.path nm) = true ∧
        (extension (pathJoin df.path nm) = some "png" ∨
          extension (pathJoin df.path nm) = some "svg" ∨
          extension (pathJoin df.path nm) = some "glb" ∨
          extension (pathJoin df.path nm) = some "gltf"))) ∧
    (∀ q s, (extension q = some "png" → Icon.from_path q s = some ⟨IconType.Png, q, s⟩) ∧
      (extension q = some "svg" → Icon.from_path q s = some ⟨IconType.Svg, q, s⟩) ∧
      (extension q = some "glb" → Icon.from_path q s = some ⟨IconType.Gltf, q, s⟩) ∧
      (extension q = some "gltf" → Icon.from_path q s = some ⟨IconType.Gltf, q, s⟩)) := by
  constructor
  · constructor
    · rintro ⟨i, hE, hpath⟩
      cases hex : exactStep w df nm pref with
      | some j =>
        obtain ⟨hf, hfp⟩ := exactStep_some_inv w df nm pref j hex
        exact ⟨hf, (from_path_isSome_iff _ pref).mp (by rw [hfp]; rfl)⟩
      | none =>
        cases hcs : cacheStep w c nm pref with
        | some j =>
          obtain ⟨cp, hl, hf, hfp⟩ := cacheStep_some_inv w c nm pref j hcs
          have hje : j = i := by
            rw [get_icon_cache w c df pref nm j hicon hex hcs] at hE
            simpa using hE
          have hcp : cp = pathJoin df.path nm := by
            have hjp := (from_path_some_inv cp pref j hfp).1
            rw [← hjp, hje, hpath]
          rw [hcp] at hf hfp
          exact ⟨hf, (from_path_isSome_iff _ pref).mp (by rw [hfp]; rfl)⟩
        | none =>
          have hpos := get_icon_theme_pos w c df pref nm hicon hex hcs
          rw [hE] at hpos
          exact absurd hpos (by simp)
    · rintro ⟨hf, hext⟩
      have hsome : (Icon.from_path (pathJoin df.path nm) pref).isSome = true :=
        (from_path_isSome_iff _ pref).mpr hext
      obtain ⟨j, hj⟩ := Option.isSome_iff_exists.mp hsome
      refine ⟨j, get_icon_exact w c df pref nm j hicon ?_,
        (from_path_some_inv _ pref j hj).1⟩
      simp [exactStep, hf, hj]
  · intro q s
    refine ⟨?_, ?_, ?_, ?_⟩ <;> intro h <;> simp [Icon.from_path, h]

/-- Witness for C4: an existing `.png` exact-path candidate is accepted
at the path joined onto the entry file's path. -/
theorem c4_witness :
    ∃ i, DesktopFile.get_icon wEntryPath emptyCache dfIc2 64 = (some i, 0) ∧
      i.path = pathJoin dfIc2.path "ic.png" :=
  ((c4_exact_candidate wEntryPath emptyCache dfIc2 64 "ic.png" rfl).1).mpr
    ⟨by decide, Or.inl (by decide)⟩

/-- C5: post-processing at the preferred size maps a Vector candidate to
a Raster result at the rasterizer's content address (the
`<name>-<bytelen>-<size>.png` naming convention, a path existing on disk
after the call), while Model3D and already-Raster candidates are
returned unchanged (same kind, path and size). -/
theorem c5_postprocessing (w : World) (c : ImageCache) (arts : List Path)
    (i : Icon) (size : Nat) (ic : Icon)
    (hok : (Icon.cached_process w c arts i size).result = RRes.ok ic) :
    (i.icon_type = IconType.Svg →
      ∃ nm, fileNameOpt i.path = some nm ∧
        ic = ⟨IconType.Png, pngAddress w nm (w.byteLen i.path) size, size⟩ ∧
        pathLive w (Icon.cached_process w c arts i size).artifacts ic.path = true) ∧
    (i.icon_type ≠ IconType.Svg → ic = i) :=
  ⟨fun ht => cached_process_ok_svg w c arts i size ic hok ht,
    fun ht => cached_process_ok_nonsvg w c arts i size ic hok ht⟩

/-- Witness for C5: the vector candidate `a.svg` is rasterized to
`cache/a.svg-10-64.png` with kind Raster. -/
theorem c5_witness :
    ((Icon.mk IconType.Svg "a.svg" 64).icon_type = IconType.Svg →
      ∃ nm, fileNameOpt (Icon.mk IconType.Svg "a.svg" 64).path = some nm ∧
        (Icon.mk IconType.Png "cache/a.svg-10-64.png" 64) =
          ⟨IconType.Png, pngAddress wSvgOnly nm
            (wSvgOnly.byteLen (Icon.mk IconType.Svg "a.svg" 64).path) 64, 64⟩ ∧
        pathLive wSvgOnly (Icon.cached_process wSvgOnly emptyCache []
            (Icon.mk IconType.Svg "a.svg" 64) 64).artifacts
          (Icon.mk IconType.Png "cache/a.svg-10-64.png" 64).path = true) ∧
    ((Icon.mk IconType.Svg "a.svg" 64).icon_type ≠ IconType.Svg →
      Icon.mk IconType.Png "cache/a.svg-10-64.png" 64 =
        Icon.mk IconType.Svg "a.svg" 64) :=
  c5_postprocessing wSvgOnly emptyCache [] ⟨IconType.Svg, "a.svg", 64⟩ 64
    ⟨IconType.Png, "cache/a.svg-10-64.png", 64⟩ (by decide)

/-- C6: for every failed cache-file state — missing file, unreadable
file, or malformed (undeserializable) contents — `load()`
(`ImageCache::new`) returns an empty cache and never raises (the
embedded function is total), and a subsequent `insert_and_persist`
still succeeds and writes a snapshot that deserializes back to the new
valid cache. -/
theorem c6_load_absorbs_failures (path : Path) (fstate : FileState) (w : World)
    (k : CacheKey) (v : Path)
    (hbad : fstate = FileState.missing ∨ fstate = FileState.unreadable ∨
      ∃ toks, fstate = FileState.contents toks ∧ decCache toks = none)
    (hser : w.serOk = true) (hwr : w.writeOk = true) :
    (ImageCache.new path fstate).map = [] ∧
    ImageCache.insert_and_persist w (ImageCache.new path fstate) k v =
      Except.ok ((ImageCache.new path fstate).insertKV k v,
        some (encCache ((ImageCache.new path fstate).insertKV k v))) ∧
    decCache (encCache ((ImageCache.new path fstate).insertKV k v)) =
      some ((ImageCache.new path fstate).insertKV k v) := by
  have hmap : (ImageCache.new path fstate).map = [] := by
    rcases hbad with rfl | rfl | ⟨toks, rfl, hdec⟩
    · rfl
    · rfl
    · simp [ImageCache.new, hdec]
  have habs : (ImageCache.new path fstate).containsKey k = false := by
    simp [ImageCache.containsKey, hmap]
  exact ⟨hmap, insert_and_persist_absent w _ k v habs hser hwr, decCache_encCache _⟩

/-- Witness for C6 at a malformed snapshot. -/
theorem c6_witness :
    (ImageCache.new "cp" (FileState.contents [Sum.inr 0])).map = [] ∧
    ImageCache.insert_and_persist baseWorld
        (ImageCache.new "cp" (FileState.contents [Sum.inr 0])) ("n", 64) "p.png" =
      Except.ok ((ImageCache.new "cp" (FileState.contents [Sum.inr 0])).insertKV ("n", 64) "p.png",
        some (encCache ((ImageCache.new "cp" (FileState.contents [Sum.inr 0])).insertKV
          ("n", 64) "p.png"))) ∧
    decCache (encCache ((ImageCache.new "cp" (FileState.contents [Sum.inr 0])).insertKV
        ("n", 64) "p.png")) =
      some ((ImageCache.new "cp" (FileState.contents [Sum.inr 0])).insertKV ("n", 64) "p.png") :=
  c6_load_absorbs_failures "cp" (FileState.contents [Sum.inr 0]) baseWorld ("n", 64) "p.png"
    (Or.inr (Or.inr ⟨[Sum.inr 0], rfl, by decide⟩)) rfl rfl

/-- C7: for every `(name, size, path)` triple whose key the cache does
not yet hold (precisely the case in which `insert_and_persist` writes a
snapshot), `insert_and_persist` followed by `load()` of the written
snapshot yields a cache whose `lookup (name, size)` is exactly the
inserted path. -/
theorem c7_persistence_roundtrip (w : World) (c : ImageCache) (nm : String)
    (sz : Nat) (v : Path) (hser : w.serOk = true) (hwr : w.writeOk = true)
    (habs : c.containsKey (nm, sz) = false) :
    ImageCache.insert_and_persist w c (nm, sz) v =
      Except.ok (c.insertKV (nm, sz) v, some (encCache (c.insertKV (nm, sz) v))) ∧
    ∀ p2, (ImageCache.new p2 (FileState.contents
        (encCache (c.insertKV (nm, sz) v)))).lookup (nm, sz) = some v := by
  refine ⟨insert_and_persist_absent w c (nm, sz) v habs hser hwr, fun p2 => ?_⟩
  simp [ImageCache.new, decCache_encCache, lookup_insertKV_self]

/-- Witness for C7 starting from a nonempty cache. -/
theorem c7_witness :
    ImageCache.insert_and_persist baseWorld cacheM32 ("n", 64) "p.png" =
      Except.ok (cacheM32.insertKV ("n", 64) "p.png",
        some (encCache (cacheM32.insertKV ("n", 64) "p.png"))) ∧
    ∀ p2, (ImageCache.new p2 (FileState.contents
        (encCache (cacheM32.insertKV ("n", 64) "p.png")))).lookup ("n", 64) = some "p.png" :=
  c7_persistence_roundtrip baseWorld cacheM32 "n" 64 "p.png" rfl rfl (by decide)

/-- C8: `insert_and_persist` is first-writer-wins per key: after any
successful call for a key, a second call with the same key and an
arbitrary value (under an arbitrary write environment) leaves the cache
table unchanged and writes nothing to the snapshot file. -/
theorem c8_insert_idempotent (w w2 : World) (c c1 : ImageCache) (k : CacheKey)
    (v1 v2 : Path) (out : Option (List Token))
    (h : ImageCache.insert_and_persist w c k v1 = Except.ok (c1, out)) :
    ImageCache.insert_and_persist w2 c1 k v2 = Except.ok (c1, none) :=
  insert_and_persist_present w2 c1 k v2
    (containsKey_of_insert_and_persist_ok w c c1 k v1 out h)

/-- Witness for C8: re-inserting `("n", 64)` with a different value is a
no-op. -/
theorem c8_witness :
    ImageCache.insert_and_persist baseWorld
        (⟨"cp", [(("n", 64), "a.png")]⟩ : ImageCache) ("n", 64) "b.png" =
      Except.ok (⟨"cp", [(("n", 64), "a.png")]⟩, none) :=
  c8_insert_idempotent baseWorld baseWorld emptyCache ⟨"cp", [(("n", 64), "a.png")]⟩
    ("n", 64) "a.png" "b.png" (some (encCache ⟨"cp", [(("n", 64), "a.png")]⟩)) rfl

/-- C9: for every entry with no icon name, resolution returns nothing
and has no effects: the cache is unchanged, no snapshot is written, no
artifact is produced, the renderer is never invoked, and the theme
adapter is never queried. -/
theorem c9_no_icon_no_effects (w : World) (c : ImageCache) (arts : List Path)
    (df : DesktopFile) (pref : Nat) (b : Bool) (h : df.icon = none) :
    Application.icon w c arts df pref b = ⟨Except.ok none, c, none, arts, 0, 0⟩ := by
  have hraw : DesktopFile.get_icon w c df pref = (none, 0) := by
    simp [DesktopFile.get_icon, h]
  unfold Application.icon
  rw [hraw]
  cases b <;> simp [selectIcon]

/-- Witness for C9. -/
theorem c9_witness :
    Application.icon baseWorld emptyCache [] dfNoIcon 64 true =
      ⟨Except.ok none, emptyCache, none, [], 0, 0⟩ :=
  c9_no_icon_no_effects baseWorld emptyCache [] dfNoIcon 64 true rfl

/-- C10: the cache write path is not total: a failing snapshot
serialization or write makes `insert_and_persist` (on an absent key)
panic rather than return, and `cached_process` panics when the candidate
path has no file name. -/
theorem c10_write_path_panics (w : World) (c : ImageCache) (k : CacheKey)
    (v : Path) (arts : List Path) (i : Icon) (size : Nat)
    (hfail : w.serOk = false ∨ w.writeOk = false)
    (habs : c.containsKey k = false)
    (hstem : fileStemOpt i.path = none) :
    ImageCache.insert_and_persist w c k v = Except.error () ∧
    Icon.cached_process w c arts i size = ⟨RRes.panic, c, none, arts, 0⟩ := by
  constructor
  · simp [ImageCache.insert_and_persist, habs, save_eq_error w _ hfail]
  · simp [Icon.cached_process, hstem]

/-- Witness for C10 with a failing writer and the file-name-free path
`..`. -/
theorem c10_witness :
    ImageCache.insert_and_persist wNoWrite emptyCache ("n", 64) "v.png" =
      Except.error () ∧
    Icon.cached_process wNoWrite emptyCache [] ⟨IconType.Png, "..", 64⟩ 64 =
      ⟨RRes.panic, emptyCache, none, [], 0⟩ :=
  c10_write_path_panics wNoWrite emptyCache ("n", 64) "v.png" []
    ⟨IconType.Png, "..", 64⟩ 64 (Or.inr rfl) (by decide) (by decide)

end Protostar
